import Mathlib

/-!
Verification of the persona-adaptive loan-intake chatbot
(`persona_chatbot.py`).

The development shallowly embeds the program's pure core: the persona
detector, the tone stylers, the validator library, the field schema with
its conditional-inclusion predicates, the optional rewriter adapter, and
the conversation engine (`ask_field` retry loop and the `main` field
loop).  Console I/O is modelled by an explicit list of input lines and a
transcript of emitted lines; the process-global `USE_LLM` flag and the
external OpenAI call are modelled as explicit parameters.  Python
machine-level caveats of the embedding:

* Python `str` is modelled by `String`; `str.strip`, `str.lower` and
  substring tests are re-implemented structurally over `List Char`
  (`pyStrip`, `pyLower`, `strContains`) so that every definition
  evaluates inside the kernel.  Only ASCII text is exercised; the
  Unicode-only differences (exotic whitespace classes, non-ASCII case
  folding, Unicode digits in `\d`/`int`) are outside the behaviour the
  schema produces.
* Python `float` is modelled by `ℚ`; the schema only parses and compares
  short decimal literals, where rational and binary-floating-point
  semantics agree.
* Python `dict` (with its insertion-order guarantee) is modelled by an
  association list `State` with `dictGet`/`dictSet` implementing
  `d.get`/`d[k] = v`.
-/

/-- Python `None`/`int`/`float`/`str` values that flow through the
chatbot: validator results and `state` dictionary entries
(`Optional[Any]` in the source). -/
inductive PyVal where
  | none : PyVal
  | int : Int → PyVal
  | float : ℚ → PyVal
  | str : String → PyVal
  deriving DecidableEq, Repr

/-- The `state` dictionary of `main`: field name to committed value, in
insertion order (Python dicts preserve insertion order). -/
abbrev State := List (String × PyVal)

/-- Python `state.get(k)`: first (and, by the engine's invariant, only)
binding of `k`. -/
def dictGet : State → String → Option PyVal
  | [], _ => Option.none
  | (k', v) :: st, k => if k' = k then Option.some v else dictGet st k

/-- Python `k in state`. -/
def dictMem : State → String → Bool
  | [], _ => false
  | (k', _) :: st, k => k' = k || dictMem st k

/-- Python `state[k] = v`: replace in place when the key is present
(dictionaries keep the original position), append otherwise. -/
def dictSet : State → String → PyVal → State
  | [], k, v => [(k, v)]
  | (k', v') :: st, k, v =>
    if k' = k then (k, v) :: st else (k', v') :: dictSet st k v

/-- Whitespace stripped by Python `str.strip()` (ASCII part). -/
def isPyWS (c : Char) : Bool :=
  c = ' ' || c = '\t' || c = '\n' || c = '\r' || c = '\x0b' || c = '\x0c'

/-- Python `str.strip()` on the character list. -/
def pyStripList (l : List Char) : List Char :=
  ((l.dropWhile isPyWS).reverse.dropWhile isPyWS).reverse

/-- Python `str.strip()`. -/
def pyStrip (s : String) : String := String.mk (pyStripList s.toList)

/-- Python `str.lower()` (ASCII case folding). -/
def pyLower (s : String) : String := String.mk (s.toList.map Char.toLower)

/-- Contiguous-sublist test over character lists. -/
def listIsInfixOf (needle : List Char) : List Char → Bool
  | [] => needle.isEmpty
  | c :: t => needle.isPrefixOf (c :: t) || listIsInfixOf needle t

/-- Python substring test `needle in hay`. -/
def strContains (hay needle : String) : Bool :=
  listIsInfixOf needle.toList hay.toList

/-- Python regex `\w` (ASCII part): letters, digits, underscore. -/
def isWordChar (c : Char) : Bool := c.isAlphanum || c = '_'

/-- A position outside the text, or holding a non-word character, is a
valid side for a `\b` word boundary adjoining a word character. -/
def notWordOpt : Option Char → Bool
  | Option.none => true
  | Option.some c => !isWordChar c

/-- One step of `re.search(r"\bLIT\b", txt)`: `prev` is the character
just before the current position.  All evasion literals start and end
with a word character, so `\b` demands a non-word (or absent) neighbour
on both sides of the matched literal. -/
def wbSearchAux (lit : List Char) : Option Char → List Char → Bool
  | _, [] => false
  | prev, c :: cs =>
    (notWordOpt prev && lit.isPrefixOf (c :: cs) &&
      notWordOpt ((c :: cs).drop lit.length).head?) ||
    wbSearchAux lit (Option.some c) cs

/-- `re.search(r"\bLIT\b", txt) is not None` for a literal pattern body. -/
def wbSearch (lit : String) (txt : String) : Bool :=
  wbSearchAux lit.toList Option.none txt.toList

-- ---------- Personas & Tone mapping ----------

def PERSONAS : List String := ["cooperative", "evasive", "aggressive", "confused"]

def TONE_MAP : List (String × String) :=
  [("cooperative", "friendly and informative"),
   ("evasive", "polite but assertive"),
   ("aggressive", "calm and empathetic"),
   ("confused", "patient, clear, and supportive")]

/-- `TONE_MAP.get(p, d)`. -/
def toneMapGet (p d : String) : String :=
  ((TONE_MAP.find? (fun q => q.1 == p)).map Prod.snd).getD d

/-- `TONE_MAP.get(p)` (no default: `None` when absent). -/
def toneMapGetOpt (p : String) : Option String :=
  (TONE_MAP.find? (fun q => q.1 == p)).map Prod.snd

def NEGATIVE_WORDS : List String :=
  ["terrible", "worst", "angry", "useless", "hate", "annoyed", "mad"]

/-- The bodies of `EVADE_PATTERNS`; each source pattern is the literal
wrapped in `\b...\b`, modelled by `wbSearch`. -/
def EVADE_PATTERNS : List String :=
  ["i don't know", "not sure", "later", "skip", "maybe"]

/-- `detect_persona` from the source: aggressive, else evasive, else
confused, else cooperative, over the lower-cased stripped text.
(`NEGATIVE_WORDS` is a Python set; `any` over it is order-independent,
so a list serves.) -/
def detect_persona (user_text : String) : String :=
  let txt := pyStrip (pyLower user_text)
  if NEGATIVE_WORDS.any (fun w => strContains txt w) || strContains txt "!" then
    "aggressive"
  else if EVADE_PATTERNS.any (fun p => wbSearch p txt) then
    "evasive"
  else if ["?", "what do you mean", "how", "help", "confused"].any
      (fun k => strContains txt k) then
    "confused"
  else
    "cooperative"

-- ---------- Field schema & validators ----------

/-- Result triple of a validator: `Tuple[bool, Optional[Any], str]`. -/
abbrev VResult := Bool × PyVal × String

/-- `Callable[[str], Tuple[bool, Optional[Any], str]]`. -/
abbrev Validator := String → VResult

/-- A `FieldSpec` dataclass entry. -/
structure FieldSpec where
  name : String
  prompt : String
  validator : Validator
  required : Bool := true
  depends_on : Option (State → Bool) := Option.none

/-- `re.fullmatch(r"-?\d+", x) is not None` (ASCII digits). -/
def isIntLit : List Char → Bool
  | '-' :: ds => !ds.isEmpty && ds.all Char.isDigit
  | ds => !ds.isEmpty && ds.all Char.isDigit

/-- Numeric value of a digit string. -/
def digitsToNat (ds : List Char) : Nat :=
  ds.foldl (fun a c => a * 10 + (c.toNat - '0'.toNat)) 0

/-- `int(x)` on a string matching `-?\d+`. -/
def parseIntLit : List Char → Int
  | '-' :: ds => -(digitsToNat ds : Int)
  | ds => (digitsToNat ds : Int)

/-- `int_in_range(min_v, max_v)` from the source.  `f"{n}"` on a Python
int renders exactly as `toString` on `Int`. -/
def int_in_range (min_v max_v : Int) : Validator := fun x =>
  let x := pyStrip x
  if !isIntLit x.toList then
    (false, PyVal.none,
     "Please enter a whole number between " ++ toString min_v ++ " and " ++
       toString max_v ++ ".")
  else
    let val := parseIntLit x.toList
    if !(decide (min_v ≤ val) && decide (val ≤ max_v)) then
      (false, PyVal.none,
       "Value must be between " ++ toString min_v ++ " and " ++
         toString max_v ++ ".")
    else
      (true, PyVal.int val, "")

/-- Leading digits of a character list, and the rest. -/
def takeDigits : List Char → List Char × List Char
  | [] => ([], [])
  | c :: cs =>
    if c.isDigit then
      let r := takeDigits cs
      (c :: r.1, r.2)
    else
      ([], c :: cs)

/-- Value `digits(ip ++ fp) * 10 ^ (e - |fp|)` as a rational, built with
`mkRat` only (decimal-literal semantics of `float(x)`; the schema never
produces values where binary-float rounding differs observably). -/
def decToRat (ip fp : List Char) (e : Int) : ℚ :=
  let m : Int := (digitsToNat (ip ++ fp) : Int)
  let sh : Int := e - (fp.length : Int)
  if 0 ≤ sh then mkRat (m * (10 : Int) ^ sh.toNat) 1
  else mkRat m ((10 : Nat) ^ (-sh).toNat)

/-- Exponent suffix after `e`/`E`: optional sign then one or more digits. -/
def parseExpSuffix : List Char → Option Int
  | '+' :: ds => if !ds.isEmpty && ds.all Char.isDigit then Option.some (digitsToNat ds : Int) else Option.none
  | '-' :: ds => if !ds.isEmpty && ds.all Char.isDigit then Option.some (-(digitsToNat ds : Int)) else Option.none
  | ds => if !ds.isEmpty && ds.all Char.isDigit then Option.some (digitsToNat ds : Int) else Option.none

/-- Unsigned decimal accepted by Python `float`: `ddd`, `ddd.`, `.ddd`,
`ddd.ddd`, each optionally followed by an exponent part. -/
def parseUnsignedFloat (l : List Char) : Option ℚ :=
  let p := takeDigits l
  match p.2 with
  | [] => if p.1.isEmpty then Option.none else Option.some (decToRat p.1 [] 0)
  | '.' :: r2 =>
    let q := takeDigits r2
    if p.1.isEmpty && q.1.isEmpty then Option.none
    else
      match q.2 with
      | [] => Option.some (decToRat p.1 q.1 0)
      | c :: r4 =>
        if c = 'e' || c = 'E' then (parseExpSuffix r4).map (decToRat p.1 q.1)
        else Option.none
  | c :: r4 =>
    if (c = 'e' || c = 'E') && !p.1.isEmpty then (parseExpSuffix r4).map (decToRat p.1 [])
    else Option.none

/-- `float(x)`: optional sign then an unsigned decimal.  (Python also
accepts `inf`/`nan` and underscore separators; the chatbot's domains
never make those accepting runs observable, and no claim depends on
them.) -/
def pyFloatOfString (s : String) : Option ℚ :=
  match s.toList with
  | '+' :: r => parseUnsignedFloat r
  | '-' :: r => (parseUnsignedFloat r).map (fun q => -q)
  | r => parseUnsignedFloat r

/-- Remove every comma: `x.replace(",", "")`. -/
def stripCommas (s : String) : String :=
  String.mk (s.toList.filter (fun c => c ≠ ','))

/-- Rendering of the bound in the f-string messages.  Every
`float_in_range` bound in the schema is integral, where Python shows
`1.0`, `-1.0`, `240.0`, …; the non-integral branch is never exercised. -/
def floatRepr (q : ℚ) : String :=
  if q.den = 1 then toString q.num ++ ".0" else toString q.num ++ "/" ++ toString q.den

/-- `float_in_range(min_v, max_v)` from the source. -/
def float_in_range (min_v max_v : ℚ) : Validator := fun x =>
  let x := stripCommas (pyStrip x)
  match pyFloatOfString x with
  | Option.none =>
    (false, PyVal.none,
     "Please enter a number between " ++ floatRepr min_v ++ " and " ++
       floatRepr max_v ++ ".")
  | Option.some val =>
    if !(decide (min_v ≤ val) && decide (val ≤ max_v)) then
      (false, PyVal.none,
       "Value must be between " ++ floatRepr min_v ++ " and " ++
         floatRepr max_v ++ ".")
    else
      (true, PyVal.float val, "")

/-- `positive_float()` from the source (the Python factory takes no
arguments, so the closure is a single validator). -/
def positive_float : Validator := fun x =>
  let x := stripCommas (pyStrip x)
  match pyFloatOfString x with
  | Option.none => (false, PyVal.none, "Please enter a positive number.")
  | Option.some val =>
    if decide (val ≤ 0) then (false, PyVal.none, "Value must be > 0.")
    else (true, PyVal.float val, "")

/-- `one_of(options)` from the source: `lower_opts` membership test, and
on success `options[lower_opts.index(s.lower())]`. -/
def one_of (options : List String) : Validator := fun x =>
  let lower_opts := options.map pyLower
  let s := pyStrip x
  if !(lower_opts.contains (pyLower s)) then
    (false, PyVal.none,
     "Please choose one of: " ++ String.intercalate ", " options ++ ".")
  else
    (true, PyVal.str (options.getD (lower_opts.indexOf (pyLower s)) ""), "")

-- Optional dependency logic

/-- `income_optional_if_unemployed_or_student` from the source:
`state.get("EmploymentStatus", "").lower() not in {"unemployed",
"student"}`.  A present non-string value would raise in Python; the
schema only ever stores a string under this key, so the wildcard branch
mirrors the `""` default for an absent key. -/
def income_optional_if_unemployed_or_student (state : State) : Bool :=
  let status := pyLower (match dictGet state "EmploymentStatus" with
    | Option.some (PyVal.str s) => s
    | _ => "")
  !(status == "unemployed" || status == "student")

/-- `partial_payments_if_missed` from the source (Lean-safe casing):
`state.get("MissedPayments", 0) > 0`.  The absent-key default `0` makes
the comparison false; a present non-int value would raise in Python and
never occurs. -/
def partialPaymentsIfMissed (state : State) : Bool :=
  match dictGet state "MissedPayments" with
  | Option.some (PyVal.int n) => decide (0 < n)
  | _ => false

/-- Pattern of the inline `CustomerID` validator:
`re.fullmatch(r"[A-Za-z]\w{2,15}", s)`. -/
def idPatternMatch (s : String) : Bool :=
  match s.toList with
  | [] => false
  | c :: rest =>
    c.isAlpha && rest.all isWordChar && decide (2 ≤ rest.length) &&
      decide (rest.length ≤ 15)

/-- The inline `CustomerID` validator lambda of the schema.  Note that,
unlike every other validator, it returns the stripped input as the value
component and a fixed error text in every case. -/
def fCustomerID : FieldSpec :=
  FieldSpec.mk "CustomerID" "Enter a unique Customer ID (e.g., C12345):"
    (fun s =>
      (idPatternMatch (pyStrip s), PyVal.str (pyStrip s),
       "ID should start with a letter and be 3–16 chars."))
    true Option.none

def fAge : FieldSpec :=
  FieldSpec.mk "Age" "Please enter your age (18–75):" (int_in_range 18 75)
    true Option.none

def fIncome : FieldSpec :=
  FieldSpec.mk "Income" "Annual income in INR (e.g., 450000):" positive_float
    true (Option.some income_optional_if_unemployed_or_student)

def fLocation : FieldSpec :=
  FieldSpec.mk "Location" "Your location (Urban/Suburban/Rural):"
    (one_of ["Urban", "Suburban", "Rural"]) true Option.none

def fEmploymentStatus : FieldSpec :=
  FieldSpec.mk "EmploymentStatus"
    "Employment status (Self-Employed/Salaried/Student/Unemployed):"
    (one_of ["Self-Employed", "Salaried", "Student", "Unemployed"]) true Option.none

def fLoanAmount : FieldSpec :=
  FieldSpec.mk "LoanAmount" "Requested loan amount in INR (must be > 0):"
    positive_float true Option.none

def fTenureMonths : FieldSpec :=
  FieldSpec.mk "TenureMonths" "Loan tenure in months (6–360):"
    (int_in_range 6 360) true Option.none

def fInterestRate : FieldSpec :=
  FieldSpec.mk "InterestRate" "Annual interest rate in % (1–30):"
    (float_in_range 1 30) true Option.none

def fLoanType : FieldSpec :=
  FieldSpec.mk "LoanType" "Type of loan (Personal/Auto/Home/Education/Business):"
    (one_of ["Personal", "Auto", "Home", "Education", "Business"]) true Option.none

def fMissedPayments : FieldSpec :=
  FieldSpec.mk "MissedPayments" "Number of missed payments (0–24):"
    (int_in_range 0 24) true Option.none

def fDelaysDays : FieldSpec :=
  FieldSpec.mk "DelaysDays" "Total delay in days (0–365):"
    (int_in_range 0 365) true Option.none

def fPartialPayments : FieldSpec :=
  FieldSpec.mk "PartialPayments" "Number of partial payments (0–24):"
    (int_in_range 0 24) true (Option.some partialPaymentsIfMissed)

def fInteractionAttempts : FieldSpec :=
  FieldSpec.mk "InteractionAttempts" "Number of contact attempts made (0–50):"
    (int_in_range 0 50) true Option.none

def fSentimentScore : FieldSpec :=
  FieldSpec.mk "SentimentScore" "Sentiment score from -1 to 1 (e.g., -0.3, 0.7):"
    (float_in_range (-1) 1) true Option.none

def fResponseTimeHours : FieldSpec :=
  FieldSpec.mk "ResponseTimeHours" "Average response time in hours (0–240):"
    (float_in_range 0 240) true Option.none

def fAppUsageFrequency : FieldSpec :=
  FieldSpec.mk "AppUsageFrequency" "App usage frequency score (0–100):"
    (float_in_range 0 100) true Option.none

def fWebsiteVisits : FieldSpec :=
  FieldSpec.mk "WebsiteVisits" "Number of visits to the loan portal (0–500):"
    (int_in_range 0 500) true Option.none

def fComplaints : FieldSpec :=
  FieldSpec.mk "Complaints" "Number of complaints registered (0–50):"
    (int_in_range 0 50) true Option.none

def fTarget : FieldSpec :=
  FieldSpec.mk "Target" "Will you likely miss the next payment? (Yes/No):"
    (one_of ["Yes", "No"]) true Option.none

/-- `SCHEMA` from the source, in its exact order. -/
def SCHEMA : List FieldSpec :=
  [fCustomerID, fAge, fIncome, fLocation, fEmploymentStatus, fLoanAmount,
   fTenureMonths, fInterestRate, fLoanType, fMissedPayments, fDelaysDays,
   fPartialPayments, fInteractionAttempts, fSentimentScore,
   fResponseTimeHours, fAppUsageFrequency, fWebsiteVisits, fComplaints,
   fTarget]

-- ---------- Tone styling helpers ----------

/-- `style_prompt` from the source.  (The source also computes
`tone = TONE_MAP.get(persona, "friendly and informative")` but never
uses it.) -/
def style_prompt (text persona : String) : String :=
  if persona = "aggressive" then "I’m here to help. " ++ text
  else if persona = "evasive" then "To proceed, " ++ text
  else if persona = "confused" then "No worries — I'll guide you. " ++ text
  else "Thanks! " ++ text

/-- `style_error` from the source; the cooperative/default branch leaves
the message unprefixed. -/
def style_error (msg persona : String) : String :=
  if persona = "aggressive" then "I get your concern. " ++ msg
  else if persona = "evasive" then "Let’s keep this moving. " ++ msg
  else if persona = "confused" then "All good — quick clarification: " ++ msg
  else msg

-- ---------- Optional OpenAI enhancement ----------

/-- `USE_LLM = bool(os.environ.get("OPENAI_API_KEY"))`: the process
environment is passed explicitly; `bool` is false on `None` and on the
empty string. -/
def USE_LLM (openai_api_key : Option String) : Bool :=
  match openai_api_key with
  | Option.none => false
  | Option.some s => !s.isEmpty

/-- The external chat-completion call, abstracted: takes the system
instruction and the user text, returns the model content, or `none` for
any exception (unavailable client, transport error, malformed
response). -/
abbrev ExtCall := String → String → Option String

/-- `maybe_llm_rewrite` from the source.  `TONE_MAP.get(persona)` with no
default renders as `None` inside the f-string when the persona is
unknown; the model content is `.strip()`-ed, and any exception falls
back to the input text. -/
def maybe_llm_rewrite (use_llm : Bool) (ext : ExtCall)
    (text persona role : String) : String :=
  if !use_llm then text
  else
    let sys := "You adapt phrasing into a " ++ (toneMapGetOpt persona).getD "None" ++
      " tone for concise " ++ role ++ "s."
    match ext sys text with
    | Option.some content => pyStrip content
    | Option.none => text

-- ---------- Conversation engine ----------

/-- `should_ask` from the source. -/
def should_ask (f : FieldSpec) (state : State) : Bool :=
  match f.depends_on with
  | Option.none => true
  | Option.some p => p state

/-- Python `a or b` on strings: `b` when `a` is falsy (empty). -/
def pyOr (a b : String) : String := if a.isEmpty then b else a

/-- The `while True` body of `ask_field`, driven by the remaining input
lines.  Returns the result (`none` when the input stream is exhausted,
which raises `EOFError` in Python), the unconsumed lines, and the
transcript of emitted lines.  Each iteration displays `prompt` (the
`input()` argument; the console additionally shows `"\n> "`), strips the
line read, re-detects the persona from it, validates, and on rejection
prints the styled error and loops — reusing the *same* `prompt` value
computed before the loop. -/
def askLoop (u : Bool) (ext : ExtCall) (f : FieldSpec) (prompt persona : String) :
    List String → Option (PyVal × String) × List String × List String
  | [] => (Option.none, [], [prompt])
  | raw :: rest =>
    let user_input := pyStrip raw
    let turn_persona := pyOr (detect_persona user_input) persona
    let r := f.validator user_input
    if r.1 then
      (Option.some (r.2.1, turn_persona), rest, [prompt])
    else
      let err_msg := maybe_llm_rewrite u ext (style_error r.2.2 turn_persona)
        turn_persona "clarification"
      let k := askLoop u ext f prompt persona rest
      (k.1, k.2.1, prompt :: err_msg :: k.2.2)

/-- `ask_field` from the source: styles the prompt once with the persona
current at field entry, then runs the retry loop.  The `state` argument
is accepted and unused, as in the source. -/
def ask_field (u : Bool) (ext : ExtCall) (f : FieldSpec) (persona : String)
    (_state : State) (inputs : List String) :
    Option (PyVal × String) × List String × List String :=
  askLoop u ext f
    (maybe_llm_rewrite u ext (style_prompt f.prompt persona) persona "question")
    persona inputs

/-- Python `value > 0` in the `MissedPayments` acknowledgement guard of
`main` (other value shapes would raise and never occur there). -/
def pyGtZero : PyVal → Bool
  | PyVal.int n => decide (0 < n)
  | PyVal.float q => decide (0 < q)
  | _ => false

/-- The field loop of `main`, from a given schema suffix, persona and
state: skip a field whose `depends_on` is false, otherwise ask it to
completion and commit `state[f.name] = value`.  Returns `none` when the
input stream ends mid-field (Python would raise `EOFError`); otherwise
the final state, persona and unconsumed input lines.  The printed
transcript (prompts, errors and the `MissedPayments` acknowledgement,
whose guard is `pyGtZero`) is carried by `ask_field` and does not affect
the state. -/
def runFields (u : Bool) (ext : ExtCall) :
    List FieldSpec → String → State → List String →
    Option (State × String × List String)
  | [], persona, st, ins => Option.some (st, persona, ins)
  | f :: fs, persona, st, ins =>
    if should_ask f st then
      match ask_field u ext f persona st ins with
      | (Option.none, _, _) => Option.none
      | (Option.some (value, persona'), rem, _) =>
        runFields u ext fs persona' (dictSet st f.name value) rem
    else
      runFields u ext fs persona st ins

-- ---------- Concrete material for witnesses and counterexamples ----------

/-- External call that always fails; with the rewriter disabled it is
never consulted anyway. -/
def extNone : ExtCall := fun _ _ => Option.none

/-- The spec's end-to-end scenario input lines (EmploymentStatus
`Salaried`, MissedPayments `0`). -/
def scenarioInputs : List String :=
  ["C001", "30", "400000", "Urban", "Salaried", "50000", "24", "10.5",
   "Personal", "0", "0", "5", "0.2", "12", "40", "20", "1", "No"]

/-- The same session with EmploymentStatus answered `Student`. -/
def studentInputs : List String :=
  ["C001", "30", "400000", "Urban", "Student", "50000", "24", "10.5",
   "Personal", "0", "0", "5", "0.2", "12", "40", "20", "1", "No"]

/-- Final `state` of the `scenarioInputs` run. -/
def scenarioFinal : State :=
  [("CustomerID", PyVal.str "C001"), ("Age", PyVal.int 30),
   ("Income", PyVal.float 400000), ("Location", PyVal.str "Urban"),
   ("EmploymentStatus", PyVal.str "Salaried"),
   ("LoanAmount", PyVal.float 50000), ("TenureMonths", PyVal.int 24),
   ("InterestRate", PyVal.float (mkRat 21 2)),
   ("LoanType", PyVal.str "Personal"), ("MissedPayments", PyVal.int 0),
   ("DelaysDays", PyVal.int 0), ("InteractionAttempts", PyVal.int 5),
   ("SentimentScore", PyVal.float (mkRat 1 5)),
   ("ResponseTimeHours", PyVal.float 12),
   ("AppUsageFrequency", PyVal.float 40), ("WebsiteVisits", PyVal.int 20),
   ("Complaints", PyVal.int 1), ("Target", PyVal.str "No")]

/-- Final `state` of the `studentInputs` run: `Income` is present even
though EmploymentStatus is `Student`. -/
def studentFinal : State :=
  [("CustomerID", PyVal.str "C001"), ("Age", PyVal.int 30),
   ("Income", PyVal.float 400000), ("Location", PyVal.str "Urban"),
   ("EmploymentStatus", PyVal.str "Student"),
   ("LoanAmount", PyVal.float 50000), ("TenureMonths", PyVal.int 24),
   ("InterestRate", PyVal.float (mkRat 21 2)),
   ("LoanType", PyVal.str "Personal"), ("MissedPayments", PyVal.int 0),
   ("DelaysDays", PyVal.int 0), ("InteractionAttempts", PyVal.int 5),
   ("SentimentScore", PyVal.float (mkRat 1 5)),
   ("ResponseTimeHours", PyVal.float 12),
   ("AppUsageFrequency", PyVal.float 40), ("WebsiteVisits", PyVal.int 20),
   ("Complaints", PyVal.int 1), ("Target", PyVal.str "No")]

/-- The spec's `ValidationOutcome` contract on one validator result: an
accepted result carries a value and no error text, a rejected one
carries error text and no value. -/
def OutcomeDisjoint (r : VResult) : Prop :=
  (r.1 = true → r.2.1 ≠ PyVal.none ∧ r.2.2 = "") ∧
  (r.1 = false → r.2.1 = PyVal.none ∧ r.2.2 ≠ "")

-- ---------- Helper lemmas ----------

theorem str_append_ne_empty (s t : String) (h : s.data ≠ []) : s ++ t ≠ "" := by
  cases s with
  | mk l =>
    cases t with
    | mk m =>
      intro hc
      have hd : l ++ m = [] := congrArg String.data hc
      exact h (List.append_eq_nil.mp hd).1

theorem dictGet_dictSet_self (st : State) (k : String) (v : PyVal) :
    dictGet (dictSet st k v) k = Option.some v := by
  induction st with
  | nil => simp [dictSet, dictGet]
  | cons p st ih =>
    by_cases h : p.1 = k
    · simp [dictSet, dictGet, h]
    · simp [dictSet, dictGet, h, ih]

theorem dictGet_dictSet_ne (st : State) (k k' : String) (v : PyVal)
    (h : k' ≠ k) : dictGet (dictSet st k' v) k = dictGet st k := by
  have h' : ¬(k' = k) := h
  induction st with
  | nil => simp [dictSet, dictGet, h']
  | cons p st ih =>
    by_cases h1 : p.1 = k'
    · have h2 : ¬(p.1 = k) := fun he => h (h1 ▸ he)
      simp [dictSet, dictGet, h1, h', h2]
    · have h3 : ¬(k = k') := fun he => h he.symm
      by_cases h2 : p.1 = k <;> simp [dictSet, dictGet, h1, h2, h3, ih]

theorem dictMem_true_iff (st : State) (k : String) :
    dictMem st k = true ↔ k ∈ st.map Prod.fst := by
  induction st with
  | nil => simp [dictMem]
  | cons p st ih =>
    simp only [dictMem, List.map_cons, List.mem_cons, Bool.or_eq_true,
      decide_eq_true_eq, ih]
    constructor
    · rintro (h | h)
      · exact Or.inl h.symm
      · exact Or.inr h
    · rintro (h | h)
      · exact Or.inl h.symm
      · exact Or.inr h

theorem dictMem_false_iff (st : State) (k : String) :
    dictMem st k = false ↔ k ∉ st.map Prod.fst := by
  rw [← dictMem_true_iff]
  cases dictMem st k <;> simp

theorem dictGet_eq_none_of_not_mem (st : State) (k : String)
    (h : k ∉ st.map Prod.fst) : dictGet st k = Option.none := by
  induction st with
  | nil => simp [dictGet]
  | cons p st ih =>
    rw [List.map_cons, List.mem_cons] at h
    push_neg at h
    have h1 : ¬(p.1 = k) := fun he => h.1 he.symm
    simp [dictGet, h1, ih h.2]

theorem dictSet_eq_append (st : State) (k : String) (v : PyVal)
    (h : dictMem st k = false) : dictSet st k v = st ++ [(k, v)] := by
  induction st with
  | nil => simp [dictSet]
  | cons p st ih =>
    simp [dictMem] at h
    simp [dictSet, h.1, ih h.2]

theorem dictMem_append_single (st : State) (k k' : String) (v : PyVal) :
    dictMem (st ++ [(k', v)]) k = (dictMem st k || (k' = k)) := by
  induction st with
  | nil => simp [dictMem]
  | cons p st ih => simp [dictMem, ih, Bool.or_assoc]

theorem lower_opts_canonical (options : List String) (key : String)
    (h : (options.map pyLower).contains key = true) :
    ∃ o, o ∈ options ∧ options.getD ((options.map pyLower).indexOf key) "" = o ∧
      pyLower o = key := by
  induction options with
  | nil => simp at h
  | cons o os ih =>
    by_cases h0 : pyLower o = key
    · exact ⟨o, List.mem_cons_self o os, by simp [List.indexOf_cons, h0], h0⟩
    · have h0' : (pyLower o == key) = false := by
        simp [h0]
      have h0'' : (key == pyLower o) = false := by
        simp
        exact fun he => h0 he.symm
      rw [List.map_cons, List.contains_cons, h0'', Bool.false_or] at h
      rcases ih h with ⟨o', ho', hc, hl⟩
      refine ⟨o', List.mem_cons_of_mem o ho', ?_, hl⟩
      simpa [List.indexOf_cons, h0'] using hc

-- ---------- Validator equation lemmas ----------

theorem int_in_range_notlit (min_v max_v : Int) (s : String)
    (h : isIntLit (pyStrip s).toList = false) :
    int_in_range min_v max_v s =
      (false, PyVal.none,
       "Please enter a whole number between " ++ toString min_v ++ " and " ++
         toString max_v ++ ".") := by
  simp only [int_in_range]
  rw [h]
  simp

theorem int_in_range_out (min_v max_v : Int) (s : String)
    (h : isIntLit (pyStrip s).toList = true)
    (hout : parseIntLit (pyStrip s).toList < min_v ∨
      max_v < parseIntLit (pyStrip s).toList) :
    int_in_range min_v max_v s =
      (false, PyVal.none,
       "Value must be between " ++ toString min_v ++ " and " ++
         toString max_v ++ ".") := by
  have hb : (decide (min_v ≤ parseIntLit (pyStrip s).toList) &&
      decide (parseIntLit (pyStrip s).toList ≤ max_v)) = false := by
    rcases hout with h2 | h2
    · rw [decide_eq_false (not_le.mpr h2), Bool.false_and]
    · rw [decide_eq_false (not_le.mpr h2), Bool.and_false]
  simp only [int_in_range]
  rw [h, hb]
  simp

theorem int_in_range_acc (min_v max_v : Int) (s : String)
    (h : isIntLit (pyStrip s).toList = true)
    (hin : min_v ≤ parseIntLit (pyStrip s).toList ∧
      parseIntLit (pyStrip s).toList ≤ max_v) :
    int_in_range min_v max_v s =
      (true, PyVal.int (parseIntLit (pyStrip s).toList), "") := by
  have hb : (decide (min_v ≤ parseIntLit (pyStrip s).toList) &&
      decide (parseIntLit (pyStrip s).toList ≤ max_v)) = true := by
    rw [decide_eq_true hin.1, decide_eq_true hin.2]
    rfl
  simp only [int_in_range]
  rw [h, hb]
  simp

theorem one_of_acc (options : List String) (x : String)
    (h : (options.map pyLower).contains (pyLower (pyStrip x)) = true) :
    one_of options x =
      (true,
       PyVal.str (options.getD ((options.map pyLower).indexOf (pyLower (pyStrip x))) ""),
       "") := by
  simp only [one_of]
  rw [h]
  simp

theorem one_of_rej (options : List String) (x : String)
    (h : (options.map pyLower).contains (pyLower (pyStrip x)) = false) :
    one_of options x =
      (false, PyVal.none,
       "Please choose one of: " ++ String.intercalate ", " options ++ ".") := by
  simp only [one_of]
  rw [h]
  simp

theorem int_in_range_accept_val (a b : Int) (s : String)
    (h : (int_in_range a b s).1 = true) :
    ∃ n : Int, (int_in_range a b s).2.1 = PyVal.int n ∧ a ≤ n ∧ n ≤ b := by
  by_cases hi : isIntLit (pyStrip s).toList = true
  · by_cases hin : a ≤ parseIntLit (pyStrip s).toList ∧
        parseIntLit (pyStrip s).toList ≤ b
    · refine ⟨parseIntLit (pyStrip s).toList, ?_, hin.1, hin.2⟩
      rw [int_in_range_acc a b s hi hin]
    · exfalso
      have hout : parseIntLit (pyStrip s).toList < a ∨
          b < parseIntLit (pyStrip s).toList := by
        rcases not_and_or.mp hin with hna | hnb
        · exact Or.inl (not_le.mp hna)
        · exact Or.inr (not_le.mp hnb)
      rw [int_in_range_out a b s hi hout] at h
      simp at h
  · rw [Bool.not_eq_true] at hi
    rw [int_in_range_notlit a b s hi] at h
    simp at h

-- ---------- Claim C5 ----------

/-- C5: for every integer-range validator `int_in_range min_v max_v` and
every input, (i) an input not matching the full signed-integer pattern
is rejected with the message stating the inclusive bounds, (ii) a
matching input parsing outside `[min_v, max_v]` is rejected, and (iii)
every accepted result carries an integer value inside the inclusive
bounds. -/
theorem int_in_range_bounds (min_v max_v : Int) (s : String) :
    (isIntLit (pyStrip s).toList = false →
      int_in_range min_v max_v s =
        (false, PyVal.none,
         "Please enter a whole number between " ++ toString min_v ++ " and " ++
           toString max_v ++ ".")) ∧
    (isIntLit (pyStrip s).toList = true →
      (parseIntLit (pyStrip s).toList < min_v ∨
        max_v < parseIntLit (pyStrip s).toList) →
      int_in_range min_v max_v s =
        (false, PyVal.none,
         "Value must be between " ++ toString min_v ++ " and " ++
           toString max_v ++ ".")) ∧
    ((int_in_range min_v max_v s).1 = true →
      ∃ n : Int, (int_in_range min_v max_v s).2.1 = PyVal.int n ∧
        min_v ≤ n ∧ n ≤ max_v) := by
  exact ⟨int_in_range_notlit min_v max_v s, int_in_range_out min_v max_v s,
    int_in_range_accept_val min_v max_v s⟩

/-- Witness for C5 at the Age bounds `[18, 75]`: the boundary inputs
`17` (= min-1) and `76` (= max+1) are rejected, a non-numeric input is
rejected with the bounds-stating message, and the boundary inputs `18`
and `75` are accepted in range. -/
theorem int_in_range_bounds_witness :
    int_in_range 18 75 "17" =
      (false, PyVal.none, "Value must be between 18 and 75.") ∧
    int_in_range 18 75 "76" =
      (false, PyVal.none, "Value must be between 18 and 75.") ∧
    int_in_range 18 75 "abc" =
      (false, PyVal.none, "Please enter a whole number between 18 and 75.") ∧
    (∃ n : Int, (int_in_range 18 75 "18").2.1 = PyVal.int n ∧ 18 ≤ n ∧ n ≤ 75) ∧
    (∃ n : Int, (int_in_range 18 75 "75").2.1 = PyVal.int n ∧ 18 ≤ n ∧ n ≤ 75) :=
  ⟨(int_in_range_bounds 18 75 "17").2.1 (by decide) (by decide),
   (int_in_range_bounds 18 75 "76").2.1 (by decide) (by decide),
   (int_in_range_bounds 18 75 "abc").1 (by decide),
   (int_in_range_bounds 18 75 "18").2.2 (by decide),
   (int_in_range_bounds 18 75 "75").2.2 (by decide)⟩

-- ---------- Claim C6 ----------

/-- C6: `one_of options` matches case-insensitively (acceptance is
exactly membership of the lower-cased stripped input among the
lower-cased options), on success returns the canonical casing taken
from the option list, and on failure lists all options verbatim in the
rejection message. -/
theorem one_of_canonical (options : List String) (x : String) :
    ((one_of options x).1 = true ↔
      (options.map pyLower).contains (pyLower (pyStrip x)) = true) ∧
    ((one_of options x).1 = true →
      ∃ o, o ∈ options ∧ (one_of options x).2.1 = PyVal.str o ∧
        pyLower o = pyLower (pyStrip x)) ∧
    ((one_of options x).1 = false →
      (one_of options x).2.2 =
        "Please choose one of: " ++ String.intercalate ", " options ++ ".") := by
  by_cases h : (options.map pyLower).contains (pyLower (pyStrip x)) = true
  · rw [one_of_acc options x h]
    refine ⟨⟨fun _ => h, fun _ => rfl⟩, fun _ => ?_, fun hfalse => ?_⟩
    · rcases lower_opts_canonical options (pyLower (pyStrip x)) h with ⟨o, ho, hc, hl⟩
      exact ⟨o, ho, by rw [hc], hl⟩
    · simp at hfalse
  · rw [Bool.not_eq_true] at h
    rw [one_of_rej options x h]
    refine ⟨⟨fun htrue => ?_, fun hcon => ?_⟩, fun htrue => ?_, fun _ => rfl⟩
    · simp at htrue
    · rw [h] at hcon
      simp at hcon
    · simp at htrue

/-- Witness for C6: input `urban` is accepted against
`["Urban", "Suburban", "Rural"]` and commits the canonical `"Urban"`,
not the user casing. -/
theorem one_of_canonical_witness :
    (∃ o, o ∈ ["Urban", "Suburban", "Rural"] ∧
      (one_of ["Urban", "Suburban", "Rural"] "urban").2.1 = PyVal.str o ∧
      pyLower o = pyLower (pyStrip "urban")) ∧
    (one_of ["Urban", "Suburban", "Rural"] "urban").2.1 = PyVal.str "Urban" :=
  ⟨(one_of_canonical ["Urban", "Suburban", "Rural"] "urban").2.1 (by decide),
   by decide⟩

-- ---------- Claim C7 ----------

/-- C7: an utterance whose normalised text satisfies the aggressive
condition (a negative-sentiment word or an exclamation mark) and also
contains a question mark is classified aggressive, never confused: the
aggressive branch of `detect_persona` runs first. -/
theorem aggressive_precedes_confused (s : String)
    (h1 : (NEGATIVE_WORDS.any (fun w => strContains (pyStrip (pyLower s)) w) ||
      strContains (pyStrip (pyLower s)) "!") = true)
    (h2 : strContains (pyStrip (pyLower s)) "?" = true) :
    detect_persona s = "aggressive" ∧ detect_persona s ≠ "confused" := by
  have hd : detect_persona s = "aggressive" := by
    simp only [detect_persona]
    rw [h1]
    simp
  exact ⟨hd, by rw [hd]; decide⟩

/-- Witness for C7: `"terrible?"` contains the negative word `terrible`
and a question mark, and is classified aggressive. -/
theorem aggressive_precedes_confused_witness :
    (NEGATIVE_WORDS.any (fun w => strContains (pyStrip (pyLower "terrible?")) w) ||
      strContains (pyStrip (pyLower "terrible?")) "!") = true ∧
    strContains (pyStrip (pyLower "terrible?")) "?" = true ∧
    detect_persona "terrible?" = "aggressive" :=
  ⟨by decide, by decide,
   (aggressive_precedes_confused "terrible?" (by decide) (by decide)).1⟩

-- ---------- Claim C10 ----------

/-- C10: when the normalised utterance triggers neither the aggressive
condition nor any evasion pattern, containing `how` as a bare substring
(also inside a longer word) suffices for the confused classification. -/
theorem confused_on_how_substring (s : String)
    (h1 : (NEGATIVE_WORDS.any (fun w => strContains (pyStrip (pyLower s)) w) ||
      strContains (pyStrip (pyLower s)) "!") = false)
    (h2 : EVADE_PATTERNS.any (fun p => wbSearch p (pyStrip (pyLower s))) = false)
    (h3 : strContains (pyStrip (pyLower s)) "how" = true) :
    detect_persona s = "confused" := by
  have hc : (["?", "what do you mean", "how", "help", "confused"].any
      (fun k => strContains (pyStrip (pyLower s)) k)) = true := by
    rw [List.any_eq_true]
    exact ⟨"how", by simp, h3⟩
  simp only [detect_persona]
  rw [h1, h2, hc]
  simp

/-- Witness for C10: `"shower"` contains `how` only inside a longer
word yet is classified confused. -/
theorem confused_on_how_substring_witness :
    (NEGATIVE_WORDS.any (fun w => strContains (pyStrip (pyLower "shower")) w) ||
      strContains (pyStrip (pyLower "shower")) "!") = false ∧
    EVADE_PATTERNS.any (fun p => wbSearch p (pyStrip (pyLower "shower"))) = false ∧
    strContains (pyStrip (pyLower "shower")) "how" = true ∧
    detect_persona "shower" = "confused" :=
  ⟨by decide, by decide, by decide,
   confused_on_how_substring "shower" (by decide) (by decide) (by decide)⟩

-- ---------- Claim C8 ----------

/-- C8: with the environment toggle absent (`OPENAI_API_KEY` unset),
`USE_LLM` is false and `maybe_llm_rewrite` returns its input text
unchanged for every external-call behaviour, text, persona and role —
the external call is never consulted. -/
theorem rewrite_disabled_identity (ext : ExtCall) (text persona role : String) :
    USE_LLM Option.none = false ∧
    maybe_llm_rewrite (USE_LLM Option.none) ext text persona role = text :=
  ⟨rfl, rfl⟩

theorem float_in_range_eq_none (a b : ℚ) (s : String)
    (hm : pyFloatOfString (stripCommas (pyStrip s)) = Option.none) :
    float_in_range a b s =
      (false, PyVal.none,
       "Please enter a number between " ++ floatRepr a ++ " and " ++
         floatRepr b ++ ".") := by
  simp only [float_in_range]
  rw [hm]

theorem float_in_range_eq_some (a b : ℚ) (s : String) (val : ℚ)
    (hm : pyFloatOfString (stripCommas (pyStrip s)) = Option.some val) :
    float_in_range a b s =
      (if (!(decide (a ≤ val) && decide (val ≤ b))) = true then
        (false, PyVal.none,
         "Value must be between " ++ floatRepr a ++ " and " ++
           floatRepr b ++ ".")
      else (true, PyVal.float val, "")) := by
  simp only [float_in_range]
  rw [hm]

theorem positive_float_eq_none (s : String)
    (hm : pyFloatOfString (stripCommas (pyStrip s)) = Option.none) :
    positive_float s = (false, PyVal.none, "Please enter a positive number.") := by
  simp only [positive_float]
  rw [hm]

theorem positive_float_eq_some (s : String) (val : ℚ)
    (hm : pyFloatOfString (stripCommas (pyStrip s)) = Option.some val) :
    positive_float s =
      (if decide (val ≤ 0) = true then (false, PyVal.none, "Value must be > 0.")
       else (true, PyVal.float val, "")) := by
  simp only [positive_float]
  rw [hm]

-- ---------- Claim C3 ----------

/-- C3 counterexample: the CustomerID validator violates the
disjointness contract at concrete inputs.  On the accepted input
`"C001"` the result carries the fixed error text alongside the value;
on the rejected input `"ab"` the result carries the stripped input as a
value rather than no value. -/
theorem customer_id_validator_both_value_and_error :
    (fCustomerID.validator "C001").1 = true ∧
    (fCustomerID.validator "C001").2.1 = PyVal.str "C001" ∧
    (fCustomerID.validator "C001").2.2 =
      "ID should start with a letter and be 3–16 chars." ∧
    (fCustomerID.validator "C001").2.2 ≠ "" ∧
    (fCustomerID.validator "ab").1 = false ∧
    (fCustomerID.validator "ab").2.1 = PyVal.str "ab" ∧
    (fCustomerID.validator "ab").2.1 ≠ PyVal.none := by
  refine ⟨rfl, rfl, rfl, ?_, rfl, rfl, ?_⟩ <;> decide

/-- C3 amended: every validator produced by `int_in_range`,
`float_in_range`, `positive_float` and `one_of` satisfies the
disjointness contract (`OutcomeDisjoint`), but the inline CustomerID
lambda does not: it returns the stripped input as the value component
and the fixed error text in every case, accepted or rejected. -/
theorem validators_outcome_disjoint_except_customer_id :
    (∀ (a b : Int) (s : String), OutcomeDisjoint (int_in_range a b s)) ∧
    (∀ (a b : ℚ) (s : String), OutcomeDisjoint (float_in_range a b s)) ∧
    (∀ s : String, OutcomeDisjoint (positive_float s)) ∧
    (∀ (opts : List String) (s : String), OutcomeDisjoint (one_of opts s)) ∧
    (∀ s : String, (fCustomerID.validator s).2.1 = PyVal.str (pyStrip s) ∧
      (fCustomerID.validator s).2.2 =
        "ID should start with a letter and be 3–16 chars.") := by
  refine ⟨?_, ?_, ?_, ?_, fun s => ⟨rfl, rfl⟩⟩
  · intro a b s
    by_cases hi : isIntLit (pyStrip s).toList = true
    · by_cases hin : a ≤ parseIntLit (pyStrip s).toList ∧
          parseIntLit (pyStrip s).toList ≤ b
      · rw [int_in_range_acc a b s hi hin]
        exact ⟨fun _ => ⟨by simp, rfl⟩, fun hf => by simp at hf⟩
      · have hout : parseIntLit (pyStrip s).toList < a ∨
            b < parseIntLit (pyStrip s).toList := by
          rcases not_and_or.mp hin with hna | hnb
          · exact Or.inl (not_le.mp hna)
          · exact Or.inr (not_le.mp hnb)
        rw [int_in_range_out a b s hi hout]
        refine ⟨fun ht => by simp at ht, fun _ => ⟨rfl, ?_⟩⟩
        exact str_append_ne_empty "Value must be between " _ (by decide)
    · rw [Bool.not_eq_true] at hi
      rw [int_in_range_notlit a b s hi]
      refine ⟨fun ht => by simp at ht, fun _ => ⟨rfl, ?_⟩⟩
      exact str_append_ne_empty "Please enter a whole number between " _ (by decide)
  · intro a b s
    cases hm : pyFloatOfString (stripCommas (pyStrip s)) with
    | none =>
      rw [float_in_range_eq_none a b s hm]
      refine ⟨fun ht => by simp at ht, fun _ => ⟨rfl, ?_⟩⟩
      exact str_append_ne_empty "Please enter a number between " _ (by decide)
    | some val =>
      rw [float_in_range_eq_some a b s val hm]
      by_cases hb : (decide (a ≤ val) && decide (val ≤ b)) = true
      · rw [hb]
        exact ⟨fun _ => ⟨by simp, rfl⟩, fun hf => by simp at hf⟩
      · rw [Bool.not_eq_true] at hb
        rw [hb]
        refine ⟨fun ht => by simp at ht, fun _ => ⟨rfl, ?_⟩⟩
        exact str_append_ne_empty "Value must be between " _ (by decide)
  · intro s
    cases hm : pyFloatOfString (stripCommas (pyStrip s)) with
    | none =>
      rw [positive_float_eq_none s hm]
      exact ⟨fun ht => by simp at ht, fun _ => ⟨rfl, by decide⟩⟩
    | some val =>
      rw [positive_float_eq_some s val hm]
      by_cases hv : (decide (val ≤ 0)) = true
      · rw [hv]
        exact ⟨fun ht => by simp at ht, fun _ => ⟨by simp, by simp⟩⟩
      · rw [Bool.not_eq_true] at hv
        rw [hv]
        exact ⟨fun _ => ⟨by simp, rfl⟩, fun hf => by simp at hf⟩
  · intro opts s
    by_cases h : (opts.map pyLower).contains (pyLower (pyStrip s)) = true
    · rw [one_of_acc opts s h]
      exact ⟨fun _ => ⟨by simp, rfl⟩, fun hf => by simp at hf⟩
    · rw [Bool.not_eq_true] at h
      rw [one_of_rej opts s h]
      refine ⟨fun ht => by simp at ht, fun _ => ⟨rfl, ?_⟩⟩
      exact str_append_ne_empty "Please choose one of: " _ (by decide)

/-- Witness for the C3 amended theorem: a concrete accepted
`int_in_range` result carries a value and empty error text, and a
concrete rejected one carries no value and nonempty error text. -/
theorem validators_outcome_disjoint_except_customer_id_witness :
    ((int_in_range 18 75 "20").2.1 ≠ PyVal.none ∧
      (int_in_range 18 75 "20").2.2 = "") ∧
    ((int_in_range 18 75 "17").2.1 = PyVal.none ∧
      (int_in_range 18 75 "17").2.2 ≠ "") ∧
    (fCustomerID.validator "C001").2.2 ≠ "" :=
  ⟨(validators_outcome_disjoint_except_customer_id.1 18 75 "20").1 (by decide),
   (validators_outcome_disjoint_except_customer_id.1 18 75 "17").2 (by decide),
   by
    rw [(validators_outcome_disjoint_except_customer_id.2.2.2.2 "C001").2]
    decide⟩

-- ---------- Engine lemmas ----------

theorem askLoop_result (u : Bool) (ext : ExtCall) (f : FieldSpec)
    (prompt persona : String) (ins : List String) (v : PyVal) (p' : String)
    (h : (askLoop u ext f prompt persona ins).1 = Option.some (v, p')) :
    ∃ raw, raw ∈ ins ∧ (f.validator (pyStrip raw)).1 = true ∧
      (f.validator (pyStrip raw)).2.1 = v ∧
      p' = pyOr (detect_persona (pyStrip raw)) persona := by
  induction ins with
  | nil => simp [askLoop] at h
  | cons raw rest ih =>
    by_cases hv : (f.validator (pyStrip raw)).1 = true
    · simp only [askLoop, hv] at h
      simp at h
      exact ⟨raw, List.mem_cons_self raw rest, hv, h.1, h.2.symm⟩
    · rw [Bool.not_eq_true] at hv
      simp only [askLoop, hv] at h
      simp at h
      rcases ih h with ⟨raw', hm, h1, h2, h3⟩
      exact ⟨raw', List.mem_cons_of_mem raw hm, h1, h2, h3⟩

theorem runFields_cons_asked (u : Bool) (ext : ExtCall) (f : FieldSpec)
    (fs : List FieldSpec) (p : String) (st : State) (ins : List String)
    (hask : should_ask f st = true) :
    runFields u ext (f :: fs) p st ins =
      (match ask_field u ext f p st ins with
       | (Option.none, _, _) => Option.none
       | (Option.some (v, p'), rem, _) =>
         runFields u ext fs p' (dictSet st f.name v) rem) := by
  simp only [runFields, hask]
  simp

theorem runFields_cons_skipped (u : Bool) (ext : ExtCall) (f : FieldSpec)
    (fs : List FieldSpec) (p : String) (st : State) (ins : List String)
    (hask : should_ask f st = false) :
    runFields u ext (f :: fs) p st ins = runFields u ext fs p st ins := by
  simp only [runFields, hask]
  simp

theorem runFields_append (u : Bool) (ext : ExtCall) (xs ys : List FieldSpec)
    (p : String) (st : State) (ins : List String) :
    runFields u ext (xs ++ ys) p st ins =
      (runFields u ext xs p st ins).bind
        (fun r => runFields u ext ys r.2.1 r.1 r.2.2) := by
  induction xs generalizing p st ins with
  | nil => simp [runFields]
  | cons f fs ih =>
    by_cases hask : should_ask f st = true
    · rw [List.cons_append, runFields_cons_asked u ext f (fs ++ ys) p st ins hask,
        runFields_cons_asked u ext f fs p st ins hask]
      rcases hres : ask_field u ext f p st ins with ⟨r, rem, t⟩
      rcases r with _ | ⟨v, p'⟩
      · simp
      · simp [ih]
    · rw [Bool.not_eq_true] at hask
      rw [List.cons_append, runFields_cons_skipped u ext f (fs ++ ys) p st ins hask,
        runFields_cons_skipped u ext f fs p st ins hask, ih]

theorem runFields_preserve (u : Bool) (ext : ExtCall) (fs : List FieldSpec)
    (k : String) (hk : k ∉ fs.map FieldSpec.name) :
    ∀ (p : String) (st : State) (ins : List String) (st' : State) (p' : String)
      (rem : List String),
      runFields u ext fs p st ins = Option.some (st', p', rem) →
      dictGet st' k = dictGet st k := by
  induction fs with
  | nil =>
    intro p st ins st' p' rem h
    simp [runFields] at h
    rw [h.1]
  | cons f fs ih =>
    intro p st ins st' p' rem h
    rw [List.map_cons, List.mem_cons] at hk
    push_neg at hk
    by_cases hask : should_ask f st = true
    · rw [runFields_cons_asked u ext f fs p st ins hask] at h
      rcases hres : ask_field u ext f p st ins with ⟨r, rem0, t⟩
      rcases r with _ | ⟨v, p0⟩
      · rw [hres] at h
        simp at h
      · rw [hres] at h
        simp only [] at h
        have := ih hk.2 p0 (dictSet st f.name v) rem0 st' p' rem h
        rw [this, dictGet_dictSet_ne st k f.name v (fun he => hk.1 (he ▸ rfl))]
    · rw [Bool.not_eq_true] at hask
      rw [runFields_cons_skipped u ext f fs p st ins hask] at h
      exact ih hk.2 p st ins st' p' rem h

theorem runFields_keys (u : Bool) (ext : ExtCall) (fs : List FieldSpec) :
    ∀ (p : String) (st : State) (ins : List String) (st' : State) (p' : String)
      (rem : List String),
      runFields u ext fs p st ins = Option.some (st', p', rem) →
      (∀ f, f ∈ fs → dictMem st f.name = false) →
      (fs.map FieldSpec.name).Nodup →
      ∃ tail, st' = st ++ tail ∧
        List.Sublist (tail.map Prod.fst) (fs.map FieldSpec.name) := by
  induction fs with
  | nil =>
    intro p st ins st' p' rem h _ _
    simp [runFields] at h
    refine ⟨[], ?_, by simp⟩
    rw [← h.1]
    simp
  | cons f fs ih =>
    intro p st ins st' p' rem h hmem hnd
    rw [List.map_cons, List.nodup_cons] at hnd
    by_cases hask : should_ask f st = true
    · rw [runFields_cons_asked u ext f fs p st ins hask] at h
      rcases hres : ask_field u ext f p st ins with ⟨r, rem0, t⟩
      rcases r with _ | ⟨v, p0⟩
      · rw [hres] at h
        simp at h
      · rw [hres] at h
        simp only [] at h
        have hm0 : dictMem st f.name = false :=
          hmem f (List.mem_cons_self f fs)
        have hset : dictSet st f.name v = st ++ [(f.name, v)] :=
          dictSet_eq_append st f.name v hm0
        rw [hset] at h
        have hmem' : ∀ g, g ∈ fs → dictMem (st ++ [(f.name, v)]) g.name = false := by
          intro g hg
          rw [dictMem_append_single st g.name f.name v]
          have h1 : dictMem st g.name = false := hmem g (List.mem_cons_of_mem f hg)
          have h2 : f.name ≠ g.name := by
            intro he
            exact hnd.1 (he ▸ List.mem_map_of_mem FieldSpec.name hg)
          rw [h1]
          simp [h2]
        rcases ih p0 (st ++ [(f.name, v)]) rem0 st' p' rem h hmem' hnd.2 with
          ⟨tail, htail, hsub⟩
        refine ⟨(f.name, v) :: tail, ?_, ?_⟩
        · rw [htail, List.append_assoc]
          rfl
        · rw [List.map_cons]
          exact List.Sublist.cons₂ f.name hsub
    · rw [Bool.not_eq_true] at hask
      rw [runFields_cons_skipped u ext f fs p st ins hask] at h
      have hmem' : ∀ g, g ∈ fs → dictMem st g.name = false :=
        fun g hg => hmem g (List.mem_cons_of_mem f hg)
      rcases ih p st ins st' p' rem h hmem' hnd.2 with ⟨tail, htail, hsub⟩
      exact ⟨tail, htail, List.Sublist.cons f.name hsub⟩

theorem ask_field_result (u : Bool) (ext : ExtCall) (f : FieldSpec)
    (persona : String) (st : State) (ins : List String) (v : PyVal)
    (p' : String) (rem : List String) (t : List String)
    (h : ask_field u ext f persona st ins = (Option.some (v, p'), rem, t)) :
    ∃ raw, raw ∈ ins ∧ (f.validator (pyStrip raw)).1 = true ∧
      (f.validator (pyStrip raw)).2.1 = v ∧
      p' = pyOr (detect_persona (pyStrip raw)) persona := by
  apply askLoop_result u ext f
    (maybe_llm_rewrite u ext (style_prompt f.prompt persona) persona "question")
    persona ins v p'
  have h1 : (ask_field u ext f persona st ins).1 = Option.some (v, p') := by
    rw [h]
  exact h1

-- ---------- Claim C2 ----------

/-- C2: in every completed run of the engine over the full schema,
MissedPayments is committed as an integer in `[0, 24]`, and the
PartialPayments key is present in the final state exactly when that
committed MissedPayments value is strictly positive. -/
theorem partialPayments_present_iff_missed (u : Bool) (ext : ExtCall)
    (ins : List String) (st : State) (p : String) (rem : List String)
    (h : runFields u ext SCHEMA "cooperative" [] ins = Option.some (st, p, rem)) :
    ∃ n : Int, dictGet st "MissedPayments" = Option.some (PyVal.int n) ∧
      0 ≤ n ∧ n ≤ 24 ∧
      ((dictGet st "PartialPayments").isSome = true ↔ 0 < n) := by
  rw [show SCHEMA =
    [fCustomerID, fAge, fIncome, fLocation, fEmploymentStatus, fLoanAmount,
     fTenureMonths, fInterestRate, fLoanType] ++
    (fMissedPayments :: fDelaysDays :: fPartialPayments ::
     [fInteractionAttempts, fSentimentScore, fResponseTimeHours,
      fAppUsageFrequency, fWebsiteVisits, fComplaints, fTarget]) from rfl,
    runFields_append] at h
  rcases hA : runFields u ext
      [fCustomerID, fAge, fIncome, fLocation, fEmploymentStatus, fLoanAmount,
       fTenureMonths, fInterestRate, fLoanType] "cooperative" [] ins with
    _ | ⟨⟨stA, pA, remA⟩⟩
  · rw [hA] at h
    exact Option.noConfusion h
  · rw [hA] at h
    have h1 : runFields u ext
        (fMissedPayments :: fDelaysDays :: fPartialPayments ::
         [fInteractionAttempts, fSentimentScore, fResponseTimeHours,
          fAppUsageFrequency, fWebsiteVisits, fComplaints, fTarget])
        pA stA remA = Option.some (st, p, rem) := h
    clear h
    -- keys collected so far stay inside the first nine field names
    rcases runFields_keys u ext _ "cooperative" [] ins stA pA remA hA
        (fun f _ => rfl) (by decide) with ⟨tailA, htailA, hsubA⟩
    have hPPA : "PartialPayments" ∉ stA.map Prod.fst := by
      rw [htailA, List.nil_append]
      intro hmem
      have hin9 := hsubA.subset hmem
      revert hin9
      decide
    -- the MissedPayments step
    rw [runFields_cons_asked u ext fMissedPayments _ pA stA remA rfl] at h1
    rcases hresM : ask_field u ext fMissedPayments pA stA remA with ⟨rM, remM, tM⟩
    rcases rM with _ | ⟨vM, pM⟩
    · rw [hresM] at h1
      exact Option.noConfusion h1
    · rw [hresM] at h1
      have h2 : runFields u ext
          (fDelaysDays :: fPartialPayments ::
           [fInteractionAttempts, fSentimentScore, fResponseTimeHours,
            fAppUsageFrequency, fWebsiteVisits, fComplaints, fTarget])
          pM (dictSet stA "MissedPayments" vM) remM =
            Option.some (st, p, rem) := h1
      clear h1
      rcases ask_field_result u ext fMissedPayments pA stA remA vM pM remM tM
          hresM with ⟨raw, _, hacc, hval, _⟩
      have haccI : (int_in_range 0 24 (pyStrip raw)).1 = true := hacc
      rcases int_in_range_accept_val 0 24 (pyStrip raw) haccI with
        ⟨n, hn, h0n, h24n⟩
      have hvn : vM = PyVal.int n := by
        rw [← hval]
        exact hn
      rw [hvn] at h2
      have hBM : dictGet (dictSet stA "MissedPayments" (PyVal.int n))
          "MissedPayments" = Option.some (PyVal.int n) :=
        dictGet_dictSet_self stA "MissedPayments" (PyVal.int n)
      have hBP : dictGet (dictSet stA "MissedPayments" (PyVal.int n))
          "PartialPayments" = Option.none := by
        rw [dictGet_dictSet_ne stA "PartialPayments" "MissedPayments"
          (PyVal.int n) (by decide)]
        exact dictGet_eq_none_of_not_mem stA "PartialPayments" hPPA
      -- the DelaysDays step
      rw [runFields_cons_asked u ext fDelaysDays _ pM
        (dictSet stA "MissedPayments" (PyVal.int n)) remM rfl] at h2
      rcases hresD : ask_field u ext fDelaysDays pM
          (dictSet stA "MissedPayments" (PyVal.int n)) remM with ⟨rD, remD, tD⟩
      rcases rD with _ | ⟨vD, pD⟩
      · rw [hresD] at h2
        exact Option.noConfusion h2
      · rw [hresD] at h2
        have h3 : runFields u ext
            (fPartialPayments ::
             [fInteractionAttempts, fSentimentScore, fResponseTimeHours,
              fAppUsageFrequency, fWebsiteVisits, fComplaints, fTarget])
            pD (dictSet (dictSet stA "MissedPayments" (PyVal.int n))
              "DelaysDays" vD) remD = Option.some (st, p, rem) := h2
        clear h2
        set stC := dictSet (dictSet stA "MissedPayments" (PyVal.int n))
          "DelaysDays" vD with hstC
        have hCM : dictGet stC "MissedPayments" = Option.some (PyVal.int n) := by
          rw [hstC, dictGet_dictSet_ne _ "MissedPayments" "DelaysDays" vD
            (by decide)]
          exact hBM
        have hCP : dictGet stC "PartialPayments" = Option.none := by
          rw [hstC, dictGet_dictSet_ne _ "PartialPayments" "DelaysDays" vD
            (by decide)]
          exact hBP
        -- the PartialPayments step: asked exactly when n > 0
        have haskP : should_ask fPartialPayments stC = decide (0 < n) := by
          show partialPaymentsIfMissed stC = decide (0 < n)
          simp only [partialPaymentsIfMissed]
          rw [hCM]
        by_cases hpos : 0 < n
        · have haskP' : should_ask fPartialPayments stC = true := by
            rw [haskP]
            simp [hpos]
          rw [runFields_cons_asked u ext fPartialPayments _ pD stC remD
            haskP'] at h3
          rcases hresP : ask_field u ext fPartialPayments pD stC remD with
            ⟨rP, remP, tP⟩
          rcases rP with _ | ⟨vP, pP⟩
          · rw [hresP] at h3
            exact Option.noConfusion h3
          · rw [hresP] at h3
            have h4 : runFields u ext
                [fInteractionAttempts, fSentimentScore, fResponseTimeHours,
                 fAppUsageFrequency, fWebsiteVisits, fComplaints, fTarget]
                pP (dictSet stC "PartialPayments" vP) remP =
                  Option.some (st, p, rem) := h3
            clear h3
            have hfM : dictGet st "MissedPayments" = Option.some (PyVal.int n) := by
              rw [runFields_preserve u ext _ "MissedPayments" (by decide)
                pP (dictSet stC "PartialPayments" vP) remP st p rem h4,
                dictGet_dictSet_ne stC "MissedPayments" "PartialPayments" vP
                  (by decide)]
              exact hCM
            have hfP : dictGet st "PartialPayments" = Option.some vP := by
              rw [runFields_preserve u ext _ "PartialPayments" (by decide)
                pP (dictSet stC "PartialPayments" vP) remP st p rem h4]
              exact dictGet_dictSet_self stC "PartialPayments" vP
            refine ⟨n, hfM, h0n, h24n, ?_⟩
            rw [hfP]
            simp [hpos]
        · have haskP' : should_ask fPartialPayments stC = false := by
            rw [haskP]
            simp [hpos]
          rw [runFields_cons_skipped u ext fPartialPayments _ pD stC remD
            haskP'] at h3
          have hfM : dictGet st "MissedPayments" = Option.some (PyVal.int n) := by
            rw [runFields_preserve u ext _ "MissedPayments" (by decide)
              pD stC remD st p rem h3]
            exact hCM
          have hfP : dictGet st "PartialPayments" = Option.none := by
            rw [runFields_preserve u ext _ "PartialPayments" (by decide)
              pD stC remD st p rem h3]
            exact hCP
          refine ⟨n, hfM, h0n, h24n, ?_⟩
          rw [hfP]
          simp [hpos]

set_option maxRecDepth 10000

/-- Witness for C2: the spec's end-to-end scenario (MissedPayments `0`)
completes, and the final state has MissedPayments `0` with no
PartialPayments key. -/
theorem partialPayments_present_iff_missed_witness :
    ∃ n : Int,
      dictGet scenarioFinal "MissedPayments" = Option.some (PyVal.int n) ∧
      0 ≤ n ∧ n ≤ 24 ∧
      ((dictGet scenarioFinal "PartialPayments").isSome = true ↔ 0 < n) :=
  partialPayments_present_iff_missed false extNone scenarioInputs scenarioFinal
    "cooperative" [] (by decide)

-- ---------- Claim C1 ----------

/-- C1: the code contradicts the claim.  Income sits at schema position
2 while EmploymentStatus sits at position 4, so
`income_optional_if_unemployed_or_student` always evaluates against a
state in which EmploymentStatus is absent (the `""` default), and
therefore returns true: the concrete run `studentInputs`, which answers
EmploymentStatus with `Student`, still prompts for Income and commits
it, so the final AnswerSet contains both `Income` and
`EmploymentStatus = "Student"`.  The last two conjuncts show the
predicate itself: on the state actually present when Income is
evaluated (CustomerID and Age only) it returns true, while on a state
that does carry `EmploymentStatus = "Student"` it would return
false. -/
theorem income_collected_despite_student :
    runFields false extNone SCHEMA "cooperative" [] studentInputs =
      Option.some (studentFinal, "cooperative", []) ∧
    dictGet studentFinal "EmploymentStatus" =
      Option.some (PyVal.str "Student") ∧
    dictGet studentFinal "Income" = Option.some (PyVal.float 400000) ∧
    income_optional_if_unemployed_or_student
      [("CustomerID", PyVal.str "C001"), ("Age", PyVal.int 30)] = true ∧
    income_optional_if_unemployed_or_student
      [("EmploymentStatus", PyVal.str "Student")] = false := by
  refine ⟨by decide, by decide, by decide, by decide, by decide⟩

-- ---------- Claim C9 ----------

/-- C9: along any run of the engine started as in `main` (empty state,
cooperative persona), the state only grows.  For any split of the
schema: the state reached after the remainder extends the intermediate
state by a suffix (no existing binding is overwritten or removed), the
final keys are unique, their insertion order is a subsequence of the
schema order, and a single engine step either leaves the state
unchanged (skip) or appends exactly one new key carrying the validated
value. -/
theorem answer_set_monotone (u : Bool) (ext : ExtCall)
    (fs1 fs2 : List FieldSpec) (ins : List String)
    (st1 : State) (p1 : String) (rem1 : List String)
    (st2 : State) (p2 : String) (rem2 : List String)
    (hsplit : SCHEMA = fs1 ++ fs2)
    (h1 : runFields u ext fs1 "cooperative" [] ins = Option.some (st1, p1, rem1))
    (h2 : runFields u ext fs2 p1 st1 rem1 = Option.some (st2, p2, rem2)) :
    (∃ tail, st2 = st1 ++ tail) ∧
    (st2.map Prod.fst).Nodup ∧
    List.Sublist (st2.map Prod.fst) (SCHEMA.map FieldSpec.name) ∧
    (∀ (f : FieldSpec) (fs2' : List FieldSpec) (st' : State) (p' : String)
        (rem' : List String), fs2 = f :: fs2' →
      runFields u ext [f] p1 st1 rem1 = Option.some (st', p', rem') →
      st' = st1 ∨
        ∃ v, st' = st1 ++ [(f.name, v)] ∧ f.name ∉ st1.map Prod.fst) := by
  have hnd : (SCHEMA.map FieldSpec.name).Nodup := by decide
  have hmapsplit : SCHEMA.map FieldSpec.name =
      fs1.map FieldSpec.name ++ fs2.map FieldSpec.name := by
    rw [hsplit, List.map_append]
  rw [hmapsplit] at hnd
  rcases List.nodup_append.mp hnd with ⟨hnd1, hnd2, hdisj⟩
  rcases runFields_keys u ext fs1 "cooperative" [] ins st1 p1 rem1 h1
      (fun f _ => rfl) hnd1 with ⟨t1, ht1, hsub1⟩
  rw [List.nil_append] at ht1
  have hsub1' : List.Sublist (st1.map Prod.fst) (fs1.map FieldSpec.name) := by
    rw [ht1]
    exact hsub1
  have hnotin2 : ∀ f, f ∈ fs2 → f.name ∉ st1.map Prod.fst := by
    intro f hf hmem
    exact hdisj (hsub1'.subset hmem) (List.mem_map_of_mem FieldSpec.name hf)
  have hmem2 : ∀ f, f ∈ fs2 → dictMem st1 f.name = false := by
    intro f hf
    exact (dictMem_false_iff st1 f.name).mpr (hnotin2 f hf)
  rcases runFields_keys u ext fs2 p1 st1 rem1 st2 p2 rem2 h2 hmem2 hnd2 with
    ⟨t2, ht2, hsub2⟩
  have hkeys2 : st2.map Prod.fst = st1.map Prod.fst ++ t2.map Prod.fst := by
    rw [ht2, List.map_append]
  refine ⟨⟨t2, ht2⟩, ?_, ?_, ?_⟩
  · rw [hkeys2]
    refine List.Nodup.append (hsub1'.nodup hnd1) (hsub2.nodup hnd2) ?_
    intro a ha1 ha2
    exact hdisj (hsub1'.subset ha1) (hsub2.subset ha2)
  · rw [hkeys2, hmapsplit]
    exact List.Sublist.append hsub1' hsub2
  · intro f fs2' st' p' rem' hfs2 hstep
    have hm : dictMem st1 f.name = false :=
      hmem2 f (hfs2 ▸ List.mem_cons_self f fs2')
    by_cases hask : should_ask f st1 = true
    · rw [runFields_cons_asked u ext f [] p1 st1 rem1 hask] at hstep
      rcases hres : ask_field u ext f p1 st1 rem1 with ⟨r, rem0, t0⟩
      rcases r with _ | ⟨v, p0⟩
      · rw [hres] at hstep
        exact Option.noConfusion hstep
      · rw [hres] at hstep
        have hstep' : Option.some (dictSet st1 f.name v, p0, rem0) =
            Option.some (st', p', rem') := hstep
        have hst' : dictSet st1 f.name v = st' :=
          congrArg (fun o => (o.getD (st', p', rem')).1) hstep'
        right
        refine ⟨v, ?_, (dictMem_false_iff st1 f.name).mp hm⟩
        rw [← hst', dictSet_eq_append st1 f.name v hm]
    · rw [Bool.not_eq_true] at hask
      rw [runFields_cons_skipped u ext f [] p1 st1 rem1 hask] at hstep
      have hstep' : Option.some (st1, p1, rem1) =
          Option.some (st', p', rem') := hstep
      left
      exact (congrArg (fun o => (o.getD (st', p', rem')).1) hstep').symm

/-- Witness for C9: the spec's end-to-end scenario instantiates the
monotonicity theorem with the empty split, giving unique final keys in
schema order. -/
theorem answer_set_monotone_witness :
    (∃ tail, scenarioFinal = ([] : State) ++ tail) ∧
    (scenarioFinal.map Prod.fst).Nodup ∧
    List.Sublist (scenarioFinal.map Prod.fst) (SCHEMA.map FieldSpec.name) := by
  have h := answer_set_monotone false extNone [] SCHEMA scenarioInputs
    [] "cooperative" scenarioInputs scenarioFinal "cooperative" [] rfl rfl
    (by decide)
  exact ⟨h.1, h.2.1, h.2.2.1⟩

-- ---------- Claim C4 ----------

theorem askLoop_transcript (u : Bool) (ext : ExtCall) (f : FieldSpec)
    (prompt persona : String) :
    ∀ (ins : List String) (m : String),
      m ∈ (askLoop u ext f prompt persona ins).2.2 →
      m = prompt ∨
      ∃ raw, raw ∈ ins ∧ (f.validator (pyStrip raw)).1 = false ∧
        m = maybe_llm_rewrite u ext
              (style_error (f.validator (pyStrip raw)).2.2
                (pyOr (detect_persona (pyStrip raw)) persona))
              (pyOr (detect_persona (pyStrip raw)) persona) "clarification" := by
  intro ins
  induction ins with
  | nil =>
    intro m hm
    simp [askLoop] at hm
    exact Or.inl hm
  | cons raw rest ih =>
    intro m hm
    by_cases hv : (f.validator (pyStrip raw)).1 = true
    · simp only [askLoop, hv] at hm
      simp at hm
      exact Or.inl hm
    · rw [Bool.not_eq_true] at hv
      simp only [askLoop, hv] at hm
      simp at hm
      rcases hm with hm | hm | hm
      · exact Or.inl hm
      · exact Or.inr ⟨raw, List.mem_cons_self raw rest, hv, hm⟩
      · rcases ih m hm with hp | ⟨raw', hraw', hrej, herr⟩
        · exact Or.inl hp
        · exact Or.inr ⟨raw', List.mem_cons_of_mem raw hraw', hrej, herr⟩

/-- C4 amended: the persona detected from each utterance styles the
error shown for that utterance and, on acceptance, becomes the running
persona returned to the engine — but every prompt emission of the same
field (the first and each re-issue after a rejection) is the single
prompt styled with the persona that was current when the field was
entered, because `ask_field` computes `prompt` once before its retry
loop. -/
theorem ask_field_styling_amended (u : Bool) (ext : ExtCall) (f : FieldSpec)
    (persona : String) (st : State) (ins : List String) :
    (∀ m, m ∈ (ask_field u ext f persona st ins).2.2 →
      m = maybe_llm_rewrite u ext (style_prompt f.prompt persona) persona
            "question" ∨
      ∃ raw, raw ∈ ins ∧ (f.validator (pyStrip raw)).1 = false ∧
        m = maybe_llm_rewrite u ext
              (style_error (f.validator (pyStrip raw)).2.2
                (pyOr (detect_persona (pyStrip raw)) persona))
              (pyOr (detect_persona (pyStrip raw)) persona) "clarification") ∧
    (∀ (v : PyVal) (p' : String),
      (ask_field u ext f persona st ins).1 = Option.some (v, p') →
      ∃ raw, raw ∈ ins ∧ (f.validator (pyStrip raw)).1 = true ∧
        p' = pyOr (detect_persona (pyStrip raw)) persona) := by
  constructor
  · intro m hm
    exact askLoop_transcript u ext f
      (maybe_llm_rewrite u ext (style_prompt f.prompt persona) persona "question")
      persona ins m hm
  · intro v p' h
    rcases askLoop_result u ext f
        (maybe_llm_rewrite u ext (style_prompt f.prompt persona) persona
          "question") persona ins v p' h with ⟨raw, hraw, hacc, _, hp⟩
    exact ⟨raw, hraw, hacc, hp⟩

/-- Witness for the C4 amended theorem: in the Age rejection session
`["17!", "18"]`, the styled error line of the transcript arises from
the rejected utterance `17!` with its detected (aggressive) persona. -/
theorem ask_field_styling_amended_witness :
    style_error "Please enter a whole number between 18 and 75." "aggressive" =
      maybe_llm_rewrite false extNone (style_prompt fAge.prompt "cooperative")
        "cooperative" "question" ∨
    ∃ raw, raw ∈ ["17!", "18"] ∧ (fAge.validator (pyStrip raw)).1 = false ∧
      style_error "Please enter a whole number between 18 and 75." "aggressive" =
        maybe_llm_rewrite false extNone
          (style_error (fAge.validator (pyStrip raw)).2.2
            (pyOr (detect_persona (pyStrip raw)) "cooperative"))
          (pyOr (detect_persona (pyStrip raw)) "cooperative") "clarification" :=
  (ask_field_styling_amended false extNone fAge "cooperative" [] ["17!", "18"]).1
    (style_error "Please enter a whole number between 18 and 75." "aggressive")
    (by decide)

/-- C4 counterexample: in the session `["17!", "18"]` on the Age field
entered with the cooperative persona, the utterance `17!` is rejected
and detected aggressive, the error line is styled aggressively, but the
re-issued prompt (third transcript line) is still the cooperative-styled
prompt — which differs from the aggressive styling of the same prompt.
So a rejected utterance's detected persona does not restyle the
re-issued prompt for the same field. -/
theorem reprompt_keeps_entry_persona :
    detect_persona "17!" = "aggressive" ∧
    (ask_field false extNone fAge "cooperative" [] ["17!", "18"]).2.2 =
      [style_prompt fAge.prompt "cooperative",
       style_error "Please enter a whole number between 18 and 75." "aggressive",
       style_prompt fAge.prompt "cooperative"] ∧
    style_prompt fAge.prompt "cooperative" ≠
      style_prompt fAge.prompt "aggressive" := by
  exact ⟨by decide, by decide, by decide⟩
